import Mathlib

/-!
Shallow embedding of the statement dispatcher in src/executor/execute.rs.

The dispatcher `execute` receives a parsed SQL statement and a storage
handle, matches on the statement kind, orchestrates calls to the storage
contract and to the external collaborators (table-name resolution, row
construction, the select pipeline, the filtered row iteration, and the
assignment applier), and returns a tagged Payload or an error.

The storage contract and the collaborators are external to the file under
verification, so they are modelled as abstract oracles: state-passing
functions over an abstract storage-state type. The embedding additionally
records a trace of the storage-contract calls the dispatcher performs
(plus one event per row drawn from the live filtered iteration), so that
claims about side effects, call order and interleaving can be stated.

Collaborator failures carry an abstract error payload; the dispatcher
wraps them with `Err.collab` (mirroring the `?`-propagation of the crate
error type), while its own two local errors are the `ExecuteError` values
wrapped with `Err.execErr` (mirroring `ExecuteError ... .into()`).
-/

namespace GlueSQL

abbrev Ident := String

/-- A column definition, as stored in a Schema. Only its identity matters
to the dispatcher, which never inspects individual fields. -/
structure ColumnDef where
  name : Ident
  deriving DecidableEq

/-- `Schema` from crate data: a table name plus ordered column defs. -/
structure Schema where
  table_name : String
  column_defs : List ColumnDef
  deriving DecidableEq

/-- A SQL value. The dispatcher never inspects values; a small closed type
suffices for concrete witnesses. -/
inductive Value
  | int (n : Int)
  | text (s : String)
  | null
  deriving DecidableEq

/-- `Row` from crate data: an ordered tuple of values. -/
structure Row where
  values : List Value
  deriving DecidableEq

/-- A possibly multi-part object name, as produced by the parser. -/
abbrev ObjectName := List Ident

/-- The sqlparser `ObjectType` used by DROP statements. -/
inductive ObjectType
  | Table
  | View
  | Index
  | SchemaKind
  deriving DecidableEq

/-- An opaque WHERE expression tree; the dispatcher passes it through to
the filter/fetch collaborator without inspecting it. -/
structure Expr where
  id : Nat
  deriving DecidableEq

/-- An opaque SELECT query body, passed through to the select pipeline. -/
structure QueryAst where
  id : Nat
  deriving DecidableEq

/-- An opaque INSERT value source, passed through to row construction. -/
structure Source where
  id : Nat
  deriving DecidableEq

/-- An opaque UPDATE assignment, passed through to the assignment applier. -/
structure Assignment where
  id : Nat
  deriving DecidableEq

/-- The statement kinds the dispatcher matches on. `Other` stands for
every remaining sqlparser statement kind (the `_` arm of the match). -/
inductive Statement
  | CreateTable (name : ObjectName) (columns : List ColumnDef)
  | Query (query : QueryAst)
  | Insert (table_name : ObjectName) (columns : List Ident) (source : Source)
  | Update (table_name : ObjectName) (assignments : List Assignment) (selection : Option Expr)
  | Delete (table_name : ObjectName) (selection : Option Expr)
  | Drop (object_type : ObjectType) (names : List ObjectName)
  | Other (tag : Nat)
  deriving DecidableEq

/-- The dispatcher-local error enum from execute.rs. -/
inductive ExecuteError
  | QueryNotSupported
  | DropTypeNotSupported
  deriving DecidableEq

/-- The crate-level error as seen through this module: either a
dispatcher-local `ExecuteError` (raised via `.into()`), or a collaborator
error propagated unchanged by `?`. -/
inductive Err (ε : Type)
  | execErr (e : ExecuteError)
  | collab (e : ε)
  deriving DecidableEq

/-- The `Payload` enum from execute.rs. -/
inductive Payload
  | Create
  | Insert (row : Row)
  | Select (rows : List Row)
  | Delete (n : Nat)
  | Update (n : Nat)
  | DropTable
  deriving DecidableEq

/-- One observable event of an execution: a storage-contract call made
directly by the dispatcher, or one row drawn from the live filtered
iteration (`fetchYield`). A call is recorded when it is attempted,
whether or not it succeeds. -/
inductive Call (κ : Type)
  | set_schema (schema : Schema)
  | get_schema (table_name : String)
  | del_schema (table_name : String)
  | gen_id (table_name : String)
  | set_data (key : κ) (row : Row)
  | del_data (key : κ)
  | fetchYield (key : κ) (row : Row)
  deriving DecidableEq

/-- The storage contract (`Store<T>` trait), state-passing over an
abstract backend state `σ` and an opaque key type `κ`. -/
structure Store (σ κ ε : Type) where
  set_schema : Schema → σ → Except ε (Unit × σ)
  get_schema : String → σ → Except ε (Schema × σ)
  del_schema : String → σ → Except ε (Unit × σ)
  gen_id : String → σ → Except ε (κ × σ)
  set_data : κ → Row → σ → Except ε (Row × σ)
  del_data : κ → σ → Except ε (Unit × σ)

/-- The external collaborators consumed by the dispatcher:
table-name resolution (`get_table_name`), row construction (`Row::new`),
the select pipeline (`select` followed by collecting its item results),
schema-column lookup (`fetch_columns`), assignment-applier construction
(`Update::new`, yielding the apply function), and the filtered row
iteration (`fetch`, yielding a finite sequence of per-item results, each
a schema/key/row triple already filtered by the WHERE predicate). -/
structure Collab (σ κ ε : Type) where
  get_table_name : ObjectName → Except ε String
  row_new : List ColumnDef → List Ident → Source → Except ε Row
  select : QueryAst → σ → Except ε (List (Except ε Row))
  fetch_columns : String → σ → Except ε (List ColumnDef)
  update_new : String → List Assignment → List ColumnDef → σ → Except ε (Row → Except ε Row)
  fetch : String → List ColumnDef → Option Expr → σ → Except ε (List (Except ε (Schema × κ × Row)))

/-- `collect::<Result<Vec<_>>>()`: first error wins. -/
def collectResults {ε α : Type} : List (Except ε α) → Except ε (List α)
  | [] => .ok []
  | .error e :: _ => .error e
  | .ok a :: rest =>
    match collectResults rest with
    | .error e => .error e
    | .ok ys => .ok (a :: ys)

/-- The UPDATE row loop: the fused `map` + `try_fold` over the lazy
filtered iteration. Per drawn item: unwrap the item result, apply the
assignment applier to the original row, write the new row back at the
same key via `set_data`, and increment the count. Any failure returns
immediately with the trace of events that already happened. -/
def updateLoop {σ κ ε : Type} (storage : Store σ κ ε) (ap : Row → Except ε Row) :
    List (Except ε (Schema × κ × Row)) → Nat → σ → List (Call κ)
      → Except (Err ε) Nat × σ × List (Call κ)
  | [], num, s, tr => (.ok num, s, tr)
  | item :: rest, num, s, tr =>
    match item with
    | .error e => (.error (.collab e), s, tr)
    | .ok (_, key, row) =>
      match ap row with
      | .error e => (.error (.collab e), s, tr ++ [.fetchYield key row])
      | .ok newRow =>
        match storage.set_data key newRow s with
        | .error e => (.error (.collab e), s, tr ++ [.fetchYield key row, .set_data key newRow])
        | .ok (_, s2) =>
          updateLoop storage ap rest (num + 1) s2 (tr ++ [.fetchYield key row, .set_data key newRow])

/-- The DELETE row loop: the `try_fold` over the lazy filtered iteration.
Per drawn item: unwrap, remove the row at its key via `del_data`, and
increment the count. -/
def deleteLoop {σ κ ε : Type} (storage : Store σ κ ε) :
    List (Except ε (Schema × κ × Row)) → Nat → σ → List (Call κ)
      → Except (Err ε) Nat × σ × List (Call κ)
  | [], num, s, tr => (.ok num, s, tr)
  | item :: rest, num, s, tr =>
    match item with
    | .error e => (.error (.collab e), s, tr)
    | .ok (_, key, row) =>
      match storage.del_data key s with
      | .error e => (.error (.collab e), s, tr ++ [.fetchYield key row, .del_data key])
      | .ok (_, s2) =>
        deleteLoop storage rest (num + 1) s2 (tr ++ [.fetchYield key row, .del_data key])

/-- The DROP name loop: per named target, resolve the table name and
remove its schema via `del_schema`. -/
def dropLoop {σ κ ε : Type} (storage : Store σ κ ε) (gtn : ObjectName → Except ε String) :
    List ObjectName → σ → List (Call κ) → Except (Err ε) Unit × σ × List (Call κ)
  | [], s, tr => (.ok (), s, tr)
  | name :: rest, s, tr =>
    match gtn name with
    | .error e => (.error (.collab e), s, tr)
    | .ok tn =>
      match storage.del_schema tn s with
      | .error e => (.error (.collab e), s, tr ++ [.del_schema tn])
      | .ok (_, s2) => dropLoop storage gtn rest s2 (tr ++ [.del_schema tn])

/-- The dispatcher `execute` from execute.rs, embedded with explicit
state passing and an event trace. Returns the statement result (Payload
or error), the final backend state, and the trace of the dispatcher's
storage calls and iteration draws, in program order. -/
def execute {σ κ ε : Type} (storage : Store σ κ ε) (cb : Collab σ κ ε)
    (sql_query : Statement) (s : σ) :
    Except (Err ε) Payload × σ × List (Call κ) :=
  match sql_query with
  | .CreateTable name columns =>
    match cb.get_table_name name with
    | .error e => (.error (.collab e), s, [])
    | .ok table_name =>
      match storage.set_schema ⟨table_name, columns⟩ s with
      | .error e => (.error (.collab e), s, [.set_schema ⟨table_name, columns⟩])
      | .ok (_, s2) => (.ok .Create, s2, [.set_schema ⟨table_name, columns⟩])
  | .Query query =>
    match cb.select query s with
    | .error e => (.error (.collab e), s, [])
    | .ok items =>
      match collectResults items with
      | .error e => (.error (.collab e), s, [])
      | .ok rows => (.ok (.Select rows), s, [])
  | .Insert table_name columns source =>
    match cb.get_table_name table_name with
    | .error e => (.error (.collab e), s, [])
    | .ok tn =>
      match storage.get_schema tn s with
      | .error e => (.error (.collab e), s, [.get_schema tn])
      | .ok (schema, s2) =>
        match storage.gen_id tn s2 with
        | .error e => (.error (.collab e), s2, [.get_schema tn, .gen_id tn])
        | .ok (key, s3) =>
          match cb.row_new schema.column_defs columns source with
          | .error e => (.error (.collab e), s3, [.get_schema tn, .gen_id tn])
          | .ok row =>
            match storage.set_data key row s3 with
            | .error e =>
              (.error (.collab e), s3, [.get_schema tn, .gen_id tn, .set_data key row])
            | .ok (storedRow, s4) =>
              (.ok (.Insert storedRow), s4, [.get_schema tn, .gen_id tn, .set_data key row])
  | .Update table_name assignments selection =>
    match cb.get_table_name table_name with
    | .error e => (.error (.collab e), s, [])
    | .ok tn =>
      match cb.fetch_columns tn s with
      | .error e => (.error (.collab e), s, [])
      | .ok columns =>
        match cb.update_new tn assignments columns s with
        | .error e => (.error (.collab e), s, [])
        | .ok ap =>
          match cb.fetch tn columns selection s with
          | .error e => (.error (.collab e), s, [])
          | .ok items =>
            match updateLoop storage ap items 0 s [] with
            | (.error e, s2, tr) => (.error e, s2, tr)
            | (.ok num, s2, tr) => (.ok (.Update num), s2, tr)
  | .Delete table_name selection =>
    match cb.get_table_name table_name with
    | .error e => (.error (.collab e), s, [])
    | .ok tn =>
      match cb.fetch_columns tn s with
      | .error e => (.error (.collab e), s, [])
      | .ok columns =>
        match cb.fetch tn columns selection s with
        | .error e => (.error (.collab e), s, [])
        | .ok items =>
          match deleteLoop storage items 0 s [] with
          | (.error e, s2, tr) => (.error e, s2, tr)
          | (.ok num, s2, tr) => (.ok (.Delete num), s2, tr)
  | .Drop object_type names =>
    if object_type ≠ ObjectType.Table then
      (.error (.execErr .DropTypeNotSupported), s, [])
    else
      match dropLoop storage cb.get_table_name names s [] with
      | (.error e, s2, tr) => (.error e, s2, tr)
      | (.ok _, s2, tr) => (.ok .DropTable, s2, tr)
  | .Other _ => (.error (.execErr .QueryNotSupported), s, [])

/-- Whether a trace event mutates the stored schema set. -/
def isSchemaMut {κ : Type} : Call κ → Bool
  | .set_schema _ => true
  | .del_schema _ => true
  | _ => false

/-- Whether a statement is a data-manipulation statement (SELECT, INSERT,
UPDATE, DELETE). -/
def isDML : Statement → Bool
  | .Query _ => true
  | .Insert _ _ _ => true
  | .Update _ _ _ => true
  | .Delete _ _ => true
  | _ => false

/-- A concrete storage backend for witnesses: the state counts the
mutating operations performed; keys are generated from the counter. -/
def testStore : Store Nat Nat Nat where
  set_schema := fun _ s => .ok ((), s + 1)
  get_schema := fun t s => .ok (⟨t, [⟨"id"⟩]⟩, s)
  del_schema := fun _ s => .ok ((), s + 1)
  gen_id := fun _ s => .ok (s, s + 1)
  set_data := fun _ r s => .ok (r, s + 1)
  del_data := fun _ s => .ok ((), s + 1)

/-- A storage backend whose `set_data` fails at key 1 (the second row of
the test iteration), after the first row has already been written. -/
def failStore : Store Nat Nat Nat where
  set_schema := fun _ s => .ok ((), s + 1)
  get_schema := fun t s => .ok (⟨t, [⟨"id"⟩]⟩, s)
  del_schema := fun _ s => .ok ((), s + 1)
  gen_id := fun _ s => .ok (s, s + 1)
  set_data := fun k r s => if k = 1 then .error 7 else .ok (r, s + 1)
  del_data := fun _ s => .ok ((), s + 1)

def row1 : Row := ⟨[.int 1]⟩

def row2 : Row := ⟨[.int 2]⟩

def schemaT : Schema := ⟨"t", [⟨"id"⟩]⟩

/-- Concrete collaborators for witnesses: a single-part name resolver,
an identity assignment applier, and a two-row filtered iteration. -/
def testCollab : Collab Nat Nat Nat where
  get_table_name := fun n =>
    match n with
    | [t] => .ok t
    | _ => .error 1
  row_new := fun _ _ source => .ok ⟨[.int (Int.ofNat source.id)]⟩
  select := fun _ _ => .ok [.ok row1]
  fetch_columns := fun _ _ => .ok [⟨"id"⟩]
  update_new := fun _ _ _ _ => .ok (fun r => .ok r)
  fetch := fun tn _ _ _ => .ok [.ok (⟨tn, [⟨"id"⟩]⟩, 0, row1), .ok (⟨tn, [⟨"id"⟩]⟩, 1, row2)]

theorem updateLoop_ok_count {σ κ ε : Type} (storage : Store σ κ ε) (ap : Row → Except ε Row) :
    ∀ (items : List (Except ε (Schema × κ × Row))) (num : Nat) (s : σ) (tr : List (Call κ))
      (n : Nat) (s2 : σ) (tr2 : List (Call κ)),
      updateLoop storage ap items num s tr = (.ok n, s2, tr2) → n = num + items.length := by
  intro items
  induction items with
  | nil =>
    intro num s tr n s2 tr2 h
    simp only [updateLoop, Prod.mk.injEq, Except.ok.injEq] at h
    simp [h.1]
  | cons item rest ih =>
    intro num s tr n s2 tr2 h
    match item with
    | .error e => simp [updateLoop] at h
    | .ok (sch, key, row) =>
      cases hap : ap row with
      | error e => simp [updateLoop, hap] at h
      | ok newRow =>
        cases hsd : storage.set_data key newRow s with
        | error e => simp [updateLoop, hap, hsd] at h
        | ok pr =>
          obtain ⟨r0, s3⟩ := pr
          simp only [updateLoop, hap, hsd] at h
          have hn := ih (num + 1) s3 (tr ++ [.fetchYield key row, .set_data key newRow]) n s2 tr2 h
          simp only [List.length_cons]
          omega

theorem updateLoop_ok_trace {σ κ ε : Type} (storage : Store σ κ ε) (ap : Row → Except ε Row) :
    ∀ (items : List (Except ε (Schema × κ × Row))) (num : Nat) (s : σ) (tr : List (Call κ))
      (n : Nat) (s2 : σ) (tr2 : List (Call κ)),
      updateLoop storage ap items num s tr = (.ok n, s2, tr2) →
      ∃ (trips : List (Schema × κ × Row)) (ws : List Row),
        items = trips.map Except.ok ∧
        List.Forall₂ (fun t w => ap t.2.2 = Except.ok w) trips ws ∧
        tr2 = tr ++ (List.zipWith
          (fun t w => [Call.fetchYield t.2.1 t.2.2, Call.set_data t.2.1 w]) trips ws).flatten := by
  intro items
  induction items with
  | nil =>
    intro num s tr n s2 tr2 h
    simp only [updateLoop, Prod.mk.injEq, Except.ok.injEq] at h
    exact ⟨[], [], by simp, List.Forall₂.nil, by simp [h.2.2]⟩
  | cons item rest ih =>
    intro num s tr n s2 tr2 h
    match item with
    | .error e => simp [updateLoop] at h
    | .ok (sch, key, row) =>
      cases hap : ap row with
      | error e => simp [updateLoop, hap] at h
      | ok newRow =>
        cases hsd : storage.set_data key newRow s with
        | error e => simp [updateLoop, hap, hsd] at h
        | ok pr =>
          obtain ⟨r0, s3⟩ := pr
          simp only [updateLoop, hap, hsd] at h
          obtain ⟨trips, ws, hitems, hfa, htr⟩ :=
            ih (num + 1) s3 (tr ++ [.fetchYield key row, .set_data key newRow]) n s2 tr2 h
          refine ⟨(sch, key, row) :: trips, newRow :: ws, by simp [hitems],
            List.Forall₂.cons hap hfa, ?_⟩
          simp [htr]

theorem deleteLoop_ok_spec {σ κ ε : Type} (storage : Store σ κ ε) :
    ∀ (items : List (Except ε (Schema × κ × Row))) (num : Nat) (s : σ) (tr : List (Call κ))
      (n : Nat) (s2 : σ) (tr2 : List (Call κ)),
      deleteLoop storage items num s tr = (.ok n, s2, tr2) →
      ∃ trips : List (Schema × κ × Row),
        items = trips.map Except.ok ∧
        n = num + trips.length ∧
        tr2 = tr ++ (trips.map
          (fun t => [Call.fetchYield t.2.1 t.2.2, Call.del_data t.2.1])).flatten := by
  intro items
  induction items with
  | nil =>
    intro num s tr n s2 tr2 h
    simp only [deleteLoop, Prod.mk.injEq, Except.ok.injEq] at h
    exact ⟨[], by simp, by simp [h.1], by simp [h.2.2]⟩
  | cons item rest ih =>
    intro num s tr n s2 tr2 h
    match item with
    | .error e => simp [deleteLoop] at h
    | .ok (sch, key, row) =>
      cases hdd : storage.del_data key s with
      | error e => simp [deleteLoop, hdd] at h
      | ok pr =>
        obtain ⟨u, s3⟩ := pr
        simp only [deleteLoop, hdd] at h
        obtain ⟨trips, hitems, hn, htr⟩ :=
          ih (num + 1) s3 (tr ++ [.fetchYield key row, .del_data key]) n s2 tr2 h
        refine ⟨(sch, key, row) :: trips, by simp [hitems], by simp [hn]; omega, ?_⟩
        simp [htr]

theorem updateLoop_error_collab {σ κ ε : Type} (storage : Store σ κ ε) (ap : Row → Except ε Row) :
    ∀ (items : List (Except ε (Schema × κ × Row))) (num : Nat) (s : σ) (tr : List (Call κ))
      (er : Err ε) (s2 : σ) (tr2 : List (Call κ)),
      updateLoop storage ap items num s tr = (.error er, s2, tr2) → ∃ e, er = Err.collab e := by
  intro items
  induction items with
  | nil =>
    intro num s tr er s2 tr2 h
    simp [updateLoop] at h
  | cons item rest ih =>
    intro num s tr er s2 tr2 h
    match item with
    | .error e =>
      simp only [updateLoop, Prod.mk.injEq, Except.error.injEq] at h
      exact ⟨e, h.1.symm⟩
    | .ok (sch, key, row) =>
      cases hap : ap row with
      | error e =>
        simp only [updateLoop, hap, Prod.mk.injEq, Except.error.injEq] at h
        exact ⟨e, h.1.symm⟩
      | ok newRow =>
        cases hsd : storage.set_data key newRow s with
        | error e =>
          simp only [updateLoop, hap, hsd, Prod.mk.injEq, Except.error.injEq] at h
          exact ⟨e, h.1.symm⟩
        | ok pr =>
          obtain ⟨r0, s3⟩ := pr
          simp only [updateLoop, hap, hsd] at h
          exact ih (num + 1) s3 (tr ++ [.fetchYield key row, .set_data key newRow]) er s2 tr2 h

theorem deleteLoop_error_collab {σ κ ε : Type} (storage : Store σ κ ε) :
    ∀ (items : List (Except ε (Schema × κ × Row))) (num : Nat) (s : σ) (tr : List (Call κ))
      (er : Err ε) (s2 : σ) (tr2 : List (Call κ)),
      deleteLoop storage items num s tr = (.error er, s2, tr2) → ∃ e, er = Err.collab e := by
  intro items
  induction items with
  | nil =>
    intro num s tr er s2 tr2 h
    simp [deleteLoop] at h
  | cons item rest ih =>
    intro num s tr er s2 tr2 h
    match item with
    | .error e =>
      simp only [deleteLoop, Prod.mk.injEq, Except.error.injEq] at h
      exact ⟨e, h.1.symm⟩
    | .ok (sch, key, row) =>
      cases hdd : storage.del_data key s with
      | error e =>
        simp only [deleteLoop, hdd, Prod.mk.injEq, Except.error.injEq] at h
        exact ⟨e, h.1.symm⟩
      | ok pr =>
        obtain ⟨u, s3⟩ := pr
        simp only [deleteLoop, hdd] at h
        exact ih (num + 1) s3 (tr ++ [.fetchYield key row, .del_data key]) er s2 tr2 h

theorem dropLoop_error_collab {σ κ ε : Type} (storage : Store σ κ ε)
    (gtn : ObjectName → Except ε String) :
    ∀ (names : List ObjectName) (s : σ) (tr : List (Call κ))
      (er : Err ε) (s2 : σ) (tr2 : List (Call κ)),
      dropLoop storage gtn names s tr = (.error er, s2, tr2) → ∃ e, er = Err.collab e := by
  intro names
  induction names with
  | nil =>
    intro s tr er s2 tr2 h
    simp [dropLoop] at h
  | cons name rest ih =>
    intro s tr er s2 tr2 h
    cases hg : gtn name with
    | error e =>
      simp only [dropLoop, hg, Prod.mk.injEq, Except.error.injEq] at h
      exact ⟨e, h.1.symm⟩
    | ok tn =>
      cases hds : storage.del_schema tn s with
      | error e =>
        simp only [dropLoop, hg, hds, Prod.mk.injEq, Except.error.injEq] at h
        exact ⟨e, h.1.symm⟩
      | ok pr =>
        obtain ⟨u, s3⟩ := pr
        simp only [dropLoop, hg, hds] at h
        exact ih s3 (tr ++ [.del_schema tn]) er s2 tr2 h

theorem updateLoop_trace_all {σ κ ε : Type} (storage : Store σ κ ε) (ap : Row → Except ε Row)
    (p : Call κ → Bool)
    (hY : ∀ k r, p (.fetchYield k r) = true) (hS : ∀ k r, p (.set_data k r) = true) :
    ∀ (items : List (Except ε (Schema × κ × Row))) (num : Nat) (s : σ) (tr : List (Call κ))
      (res : Except (Err ε) Nat) (s2 : σ) (tr2 : List (Call κ)),
      updateLoop storage ap items num s tr = (res, s2, tr2) →
      tr.all p = true → tr2.all p = true := by
  intro items
  induction items with
  | nil =>
    intro num s tr res s2 tr2 h htr
    simp only [updateLoop, Prod.mk.injEq] at h
    exact h.2.2 ▸ htr
  | cons item rest ih =>
    intro num s tr res s2 tr2 h htr
    match item with
    | .error e =>
      simp only [updateLoop, Prod.mk.injEq] at h
      exact h.2.2 ▸ htr
    | .ok (sch, key, row) =>
      cases hap : ap row with
      | error e =>
        simp only [updateLoop, hap, Prod.mk.injEq] at h
        rw [← h.2.2]
        simp [List.all_append, htr, hY]
      | ok newRow =>
        cases hsd : storage.set_data key newRow s with
        | error e =>
          simp only [updateLoop, hap, hsd, Prod.mk.injEq] at h
          rw [← h.2.2]
          simp [List.all_append, htr, hY, hS]
        | ok pr =>
          obtain ⟨r0, s3⟩ := pr
          simp only [updateLoop, hap, hsd] at h
          exact ih (num + 1) s3 (tr ++ [.fetchYield key row, .set_data key newRow]) res s2 tr2 h
            (by simp [List.all_append, htr, hY, hS])

theorem deleteLoop_trace_all {σ κ ε : Type} (storage : Store σ κ ε)
    (p : Call κ → Bool)
    (hY : ∀ k r, p (.fetchYield k r) = true) (hD : ∀ k, p (.del_data k) = true) :
    ∀ (items : List (Except ε (Schema × κ × Row))) (num : Nat) (s : σ) (tr : List (Call κ))
      (res : Except (Err ε) Nat) (s2 : σ) (tr2 : List (Call κ)),
      deleteLoop storage items num s tr = (res, s2, tr2) →
      tr.all p = true → tr2.all p = true := by
  intro items
  induction items with
  | nil =>
    intro num s tr res s2 tr2 h htr
    simp only [deleteLoop, Prod.mk.injEq] at h
    exact h.2.2 ▸ htr
  | cons item rest ih =>
    intro num s tr res s2 tr2 h htr
    match item with
    | .error e =>
      simp only [deleteLoop, Prod.mk.injEq] at h
      exact h.2.2 ▸ htr
    | .ok (sch, key, row) =>
      cases hdd : storage.del_data key s with
      | error e =>
        simp only [deleteLoop, hdd, Prod.mk.injEq] at h
        rw [← h.2.2]
        simp [List.all_append, htr, hY, hD]
      | ok pr =>
        obtain ⟨u, s3⟩ := pr
        simp only [deleteLoop, hdd] at h
        exact ih (num + 1) s3 (tr ++ [.fetchYield key row, .del_data key]) res s2 tr2 h
          (by simp [List.all_append, htr, hY, hD])

theorem updateLoop_error_trace {σ κ ε : Type} (storage : Store σ κ ε) (ap : Row → Except ε Row) :
    ∀ (items : List (Except ε (Schema × κ × Row))) (num : Nat) (s : σ) (tr : List (Call κ))
      (er : Err ε) (s2 : σ) (tr2 : List (Call κ)),
      updateLoop storage ap items num s tr = (.error er, s2, tr2) →
      ∃ (trips : List (Schema × κ × Row)) (ws : List Row) (tail : List (Call κ)),
        tr2 = tr ++ (List.zipWith
          (fun t w => [Call.fetchYield t.2.1 t.2.2, Call.set_data t.2.1 w]) trips ws).flatten
          ++ tail ∧
        (tail = [] ∨ (∃ k r, tail = [Call.fetchYield k r]) ∨
          (∃ k r w, tail = [Call.fetchYield k r, Call.set_data k w])) := by
  intro items
  induction items with
  | nil =>
    intro num s tr er s2 tr2 h
    simp [updateLoop] at h
  | cons item rest ih =>
    intro num s tr er s2 tr2 h
    match item with
    | .error e =>
      simp only [updateLoop, Prod.mk.injEq] at h
      exact ⟨[], [], [], by simp [← h.2.2], Or.inl rfl⟩
    | .ok (sch, key, row) =>
      cases hap : ap row with
      | error e =>
        simp only [updateLoop, hap, Prod.mk.injEq] at h
        exact ⟨[], [], [Call.fetchYield key row], by simp [← h.2.2],
          Or.inr (Or.inl ⟨key, row, rfl⟩)⟩
      | ok newRow =>
        cases hsd : storage.set_data key newRow s with
        | error e =>
          simp only [updateLoop, hap, hsd, Prod.mk.injEq] at h
          exact ⟨[], [], [Call.fetchYield key row, Call.set_data key newRow],
            by simp [← h.2.2], Or.inr (Or.inr ⟨key, row, newRow, rfl⟩)⟩
        | ok pr =>
          obtain ⟨r0, s3⟩ := pr
          simp only [updateLoop, hap, hsd] at h
          obtain ⟨trips, ws, tail, htr, htail⟩ :=
            ih (num + 1) s3 (tr ++ [.fetchYield key row, .set_data key newRow]) er s2 tr2 h
          refine ⟨(sch, key, row) :: trips, newRow :: ws, tail, ?_, htail⟩
          simp [htr]

theorem deleteLoop_error_trace {σ κ ε : Type} (storage : Store σ κ ε) :
    ∀ (items : List (Except ε (Schema × κ × Row))) (num : Nat) (s : σ) (tr : List (Call κ))
      (er : Err ε) (s2 : σ) (tr2 : List (Call κ)),
      deleteLoop storage items num s tr = (.error er, s2, tr2) →
      ∃ (trips : List (Schema × κ × Row)) (tail : List (Call κ)),
        tr2 = tr ++ (trips.map
          (fun t => [Call.fetchYield t.2.1 t.2.2, Call.del_data t.2.1])).flatten ++ tail ∧
        (tail = [] ∨ ∃ k r, tail = [Call.fetchYield k r, Call.del_data k]) := by
  intro items
  induction items with
  | nil =>
    intro num s tr er s2 tr2 h
    simp [deleteLoop] at h
  | cons item rest ih =>
    intro num s tr er s2 tr2 h
    match item with
    | .error e =>
      simp only [deleteLoop, Prod.mk.injEq] at h
      exact ⟨[], [], by simp [← h.2.2], Or.inl rfl⟩
    | .ok (sch, key, row) =>
      cases hdd : storage.del_data key s with
      | error e =>
        simp only [deleteLoop, hdd, Prod.mk.injEq] at h
        exact ⟨[], [Call.fetchYield key row, Call.del_data key],
          by simp [← h.2.2], Or.inr ⟨key, row, rfl⟩⟩
      | ok pr =>
        obtain ⟨u, s3⟩ := pr
        simp only [deleteLoop, hdd] at h
        obtain ⟨trips, tail, htr, htail⟩ :=
          ih (num + 1) s3 (tr ++ [.fetchYield key row, .del_data key]) er s2 tr2 h
        refine ⟨(sch, key, row) :: trips, tail, ?_, htail⟩
        simp [htr]

theorem dropLoop_error_trace {σ κ ε : Type} (storage : Store σ κ ε)
    (gtn : ObjectName → Except ε String) :
    ∀ (names : List ObjectName) (s : σ) (tr : List (Call κ))
      (er : Err ε) (s2 : σ) (tr2 : List (Call κ)),
      dropLoop storage gtn names s tr = (.error er, s2, tr2) →
      ∃ tns : List String, tr2 = tr ++ tns.map Call.del_schema := by
  intro names
  induction names with
  | nil =>
    intro s tr er s2 tr2 h
    simp [dropLoop] at h
  | cons name rest ih =>
    intro s tr er s2 tr2 h
    cases hg : gtn name with
    | error e =>
      simp only [dropLoop, hg, Prod.mk.injEq] at h
      exact ⟨[], by simp [← h.2.2]⟩
    | ok tn =>
      cases hds : storage.del_schema tn s with
      | error e =>
        simp only [dropLoop, hg, hds, Prod.mk.injEq] at h
        exact ⟨[tn], by simp [← h.2.2]⟩
      | ok pr =>
        obtain ⟨u, s3⟩ := pr
        simp only [dropLoop, hg, hds] at h
        obtain ⟨tns, htr⟩ := ih s3 (tr ++ [.del_schema tn]) er s2 tr2 h
        exact ⟨tn :: tns, by simp [htr]⟩

/-- Claim C1: for every UPDATE statement that executes successfully, the
count returned in the updated-count Payload equals the number of rows of
the target table yielded by the filtered iteration (the rows for which
the WHERE predicate evaluates true; with no WHERE clause, every row):
every yielded row is rewritten and counted exactly once. -/
theorem C1_update_count {σ κ ε : Type} (storage : Store σ κ ε) (cb : Collab σ κ ε)
    (tn0 : ObjectName) (asgn : List Assignment) (sel : Option Expr) (s : σ)
    (n : Nat) (s2 : σ) (tr : List (Call κ))
    (hex : execute storage cb (.Update tn0 asgn sel) s = (.ok (.Update n), s2, tr)) :
    ∃ (tn : String) (cols : List ColumnDef) (items : List (Except ε (Schema × κ × Row))),
      cb.get_table_name tn0 = .ok tn ∧
      cb.fetch_columns tn s = .ok cols ∧
      cb.fetch tn cols sel s = .ok items ∧
      n = items.length := by
  simp only [execute] at hex
  cases hg : cb.get_table_name tn0 with
  | error e => simp [hg] at hex
  | ok tn =>
    simp only [hg] at hex
    cases hc : cb.fetch_columns tn s with
    | error e => simp [hc] at hex
    | ok cols =>
      simp only [hc] at hex
      cases hu : cb.update_new tn asgn cols s with
      | error e => simp [hu] at hex
      | ok ap =>
        simp only [hu] at hex
        cases hf : cb.fetch tn cols sel s with
        | error e => simp [hf] at hex
        | ok items =>
          simp only [hf] at hex
          rcases hl : updateLoop storage ap items 0 s [] with ⟨res, s3, tr3⟩
          simp only [hl] at hex
          cases res with
          | error e => simp at hex
          | ok num =>
            simp only [Prod.mk.injEq, Except.ok.injEq, Payload.Update.injEq] at hex
            have hcount := updateLoop_ok_count storage ap items 0 s [] num s3 tr3 hl
            exact ⟨tn, cols, items, rfl, hc, hf, by omega⟩

/-- Witness for C1: an UPDATE over the two-row test iteration succeeds
and returns updated-count 2, the number of yielded rows. -/
theorem C1_update_count_witness :
    ∃ (tn : String) (cols : List ColumnDef) (items : List (Except Nat (Schema × Nat × Row))),
      testCollab.get_table_name ["t"] = .ok tn ∧
      testCollab.fetch_columns tn 0 = .ok cols ∧
      testCollab.fetch tn cols none 0 = .ok items ∧
      2 = items.length :=
  C1_update_count testStore testCollab ["t"] [] none 0 2 2
    [.fetchYield 0 row1, .set_data 0 row1, .fetchYield 1 row2, .set_data 1 row2] rfl

/-- Claim C2: for every DELETE statement that executes successfully, each
row yielded by the filtered iteration is removed via del_data at exactly
that row's key, the deleted-count Payload equals the number of such rows,
and the trace contains no other removal (rows not matching the predicate
are not removed). -/
theorem C2_delete_rows {σ κ ε : Type} (storage : Store σ κ ε) (cb : Collab σ κ ε)
    (tn0 : ObjectName) (sel : Option Expr) (s : σ)
    (n : Nat) (s2 : σ) (tr : List (Call κ))
    (hex : execute storage cb (.Delete tn0 sel) s = (.ok (.Delete n), s2, tr)) :
    ∃ (tn : String) (cols : List ColumnDef) (trips : List (Schema × κ × Row)),
      cb.get_table_name tn0 = .ok tn ∧
      cb.fetch_columns tn s = .ok cols ∧
      cb.fetch tn cols sel s = .ok (trips.map Except.ok) ∧
      n = trips.length ∧
      tr = (trips.map (fun t => [Call.fetchYield t.2.1 t.2.2, Call.del_data t.2.1])).flatten := by
  simp only [execute] at hex
  cases hg : cb.get_table_name tn0 with
  | error e => simp [hg] at hex
  | ok tn =>
    simp only [hg] at hex
    cases hc : cb.fetch_columns tn s with
    | error e => simp [hc] at hex
    | ok cols =>
      simp only [hc] at hex
      cases hf : cb.fetch tn cols sel s with
      | error e => simp [hf] at hex
      | ok items =>
        simp only [hf] at hex
        rcases hl : deleteLoop storage items 0 s [] with ⟨res, s3, tr3⟩
        simp only [hl] at hex
        cases res with
        | error e => simp at hex
        | ok num =>
          simp only [Prod.mk.injEq, Except.ok.injEq, Payload.Delete.injEq] at hex
          obtain ⟨trips, hitems, hn, htr⟩ := deleteLoop_ok_spec storage items 0 s [] num s3 tr3 hl
          refine ⟨tn, cols, trips, rfl, hc, hitems ▸ hf, ?_, ?_⟩
          · have h1 := hex.1
            omega
          · rw [← hex.2.2, htr]
            simp

/-- Witness for C2: a DELETE over the two-row test iteration succeeds
with deleted-count 2 and a trace removing exactly the yielded keys. -/
theorem C2_delete_rows_witness :
    ∃ (tn : String) (cols : List ColumnDef) (trips : List (Schema × Nat × Row)),
      testCollab.get_table_name ["t"] = .ok tn ∧
      testCollab.fetch_columns tn 0 = .ok cols ∧
      testCollab.fetch tn cols none 0 = .ok (trips.map Except.ok) ∧
      2 = trips.length ∧
      [Call.fetchYield 0 row1, Call.del_data 0, Call.fetchYield 1 row2, Call.del_data 1] =
        (trips.map (fun t => [Call.fetchYield t.2.1 t.2.2, Call.del_data t.2.1])).flatten :=
  C2_delete_rows testStore testCollab ["t"] none 0 2 2
    [.fetchYield 0 row1, .del_data 0, .fetchYield 1 row2, .del_data 1] rfl

/-- Claim C3: for every INSERT statement that executes successfully, the
dispatcher first resolves the Schema (get_schema), then requests a fresh
Key (gen_id), then constructs the Row validated against the schema's
column definitions, then writes it via set_data; the Payload wraps the
row returned by set_data (what storage confirms), not the constructed
input row. -/
theorem C3_insert_flow {σ κ ε : Type} (storage : Store σ κ ε) (cb : Collab σ κ ε)
    (tn0 : ObjectName) (cols : List Ident) (source : Source) (s : σ)
    (p : Payload) (s2 : σ) (tr : List (Call κ))
    (hex : execute storage cb (.Insert tn0 cols source) s = (.ok p, s2, tr)) :
    ∃ (tn : String) (schema : Schema) (s3 : σ) (key : κ) (s4 : σ)
      (row storedRow : Row) (s5 : σ),
      cb.get_table_name tn0 = .ok tn ∧
      storage.get_schema tn s = .ok (schema, s3) ∧
      storage.gen_id tn s3 = .ok (key, s4) ∧
      cb.row_new schema.column_defs cols source = .ok row ∧
      storage.set_data key row s4 = .ok (storedRow, s5) ∧
      p = .Insert storedRow ∧
      tr = [.get_schema tn, .gen_id tn, .set_data key row] ∧
      s2 = s5 := by
  simp only [execute] at hex
  cases hg : cb.get_table_name tn0 with
  | error e => simp [hg] at hex
  | ok tn =>
    simp only [hg] at hex
    cases hgs : storage.get_schema tn s with
    | error e => simp [hgs] at hex
    | ok pr =>
      obtain ⟨schema, s3⟩ := pr
      simp only [hgs] at hex
      cases hid : storage.gen_id tn s3 with
      | error e => simp [hid] at hex
      | ok pr2 =>
        obtain ⟨key, s4⟩ := pr2
        simp only [hid] at hex
        cases hrn : cb.row_new schema.column_defs cols source with
        | error e => simp [hrn] at hex
        | ok row =>
          simp only [hrn] at hex
          cases hsd : storage.set_data key row s4 with
          | error e => simp [hsd] at hex
          | ok pr3 =>
            obtain ⟨storedRow, s5⟩ := pr3
            simp only [hsd, Prod.mk.injEq, Except.ok.injEq] at hex
            exact ⟨tn, schema, s3, key, s4, row, storedRow, s5, rfl, hgs, hid, hrn, hsd,
              hex.1.symm, hex.2.2.symm, hex.2.1.symm⟩

/-- Witness for C3: a successful INSERT against the test backend, whose
Payload wraps the row confirmed by set_data. -/
theorem C3_insert_flow_witness :
    ∃ (tn : String) (schema : Schema) (s3 : Nat) (key : Nat) (s4 : Nat)
      (row storedRow : Row) (s5 : Nat),
      testCollab.get_table_name ["t"] = .ok tn ∧
      testStore.get_schema tn 0 = .ok (schema, s3) ∧
      testStore.gen_id tn s3 = .ok (key, s4) ∧
      testCollab.row_new schema.column_defs [] ⟨5⟩ = .ok row ∧
      testStore.set_data key row s4 = .ok (storedRow, s5) ∧
      Payload.Insert ⟨[.int 5]⟩ = .Insert storedRow ∧
      [Call.get_schema "t", Call.gen_id "t", Call.set_data 0 ⟨[.int 5]⟩] =
        [.get_schema tn, .gen_id tn, .set_data key row] ∧
      (2 : Nat) = s5 :=
  C3_insert_flow testStore testCollab ["t"] [] ⟨5⟩ 0 (.Insert ⟨[.int 5]⟩) 2
    [.get_schema "t", .gen_id "t", .set_data 0 ⟨[.int 5]⟩] rfl

/-- Claim C4: for every successful UPDATE, each new row produced by the
Assignment Applier is written back via set_data at exactly the Key under
which the original row was yielded by the iteration: the trace is a
sequence of yield/write pairs sharing one key, so the dispatcher never
substitutes a different key and row identity is preserved. -/
theorem C4_update_same_key {σ κ ε : Type} (storage : Store σ κ ε) (cb : Collab σ κ ε)
    (tn0 : ObjectName) (asgn : List Assignment) (sel : Option Expr) (s : σ)
    (n : Nat) (s2 : σ) (tr : List (Call κ))
    (hex : execute storage cb (.Update tn0 asgn sel) s = (.ok (.Update n), s2, tr)) :
    ∃ (tn : String) (cols : List ColumnDef) (ap : Row → Except ε Row)
      (trips : List (Schema × κ × Row)) (ws : List Row),
      cb.get_table_name tn0 = .ok tn ∧
      cb.fetch_columns tn s = .ok cols ∧
      cb.update_new tn asgn cols s = .ok ap ∧
      cb.fetch tn cols sel s = .ok (trips.map Except.ok) ∧
      List.Forall₂ (fun t w => ap t.2.2 = Except.ok w) trips ws ∧
      tr = (List.zipWith
        (fun t w => [Call.fetchYield t.2.1 t.2.2, Call.set_data t.2.1 w]) trips ws).flatten := by
  simp only [execute] at hex
  cases hg : cb.get_table_name tn0 with
  | error e => simp [hg] at hex
  | ok tn =>
    simp only [hg] at hex
    cases hc : cb.fetch_columns tn s with
    | error e => simp [hc] at hex
    | ok cols =>
      simp only [hc] at hex
      cases hu : cb.update_new tn asgn cols s with
      | error e => simp [hu] at hex
      | ok ap =>
        simp only [hu] at hex
        cases hf : cb.fetch tn cols sel s with
        | error e => simp [hf] at hex
        | ok items =>
          simp only [hf] at hex
          rcases hl : updateLoop storage ap items 0 s [] with ⟨res, s3, tr3⟩
          simp only [hl] at hex
          cases res with
          | error e => simp at hex
          | ok num =>
            simp only [Prod.mk.injEq, Except.ok.injEq, Payload.Update.injEq] at hex
            obtain ⟨trips, ws, hitems, hfa, htr⟩ :=
              updateLoop_ok_trace storage ap items 0 s [] num s3 tr3 hl
            refine ⟨tn, cols, ap, trips, ws, rfl, hc, hu, hitems ▸ hf, hfa, ?_⟩
            rw [← hex.2.2, htr]
            simp

/-- Witness for C4: the successful two-row UPDATE writes each applied row
back at the key it was yielded under. -/
theorem C4_update_same_key_witness :
    ∃ (tn : String) (cols : List ColumnDef) (ap : Row → Except Nat Row)
      (trips : List (Schema × Nat × Row)) (ws : List Row),
      testCollab.get_table_name ["t"] = .ok tn ∧
      testCollab.fetch_columns tn 0 = .ok cols ∧
      testCollab.update_new tn [] cols 0 = .ok ap ∧
      testCollab.fetch tn cols none 0 = .ok (trips.map Except.ok) ∧
      List.Forall₂ (fun t w => ap t.2.2 = Except.ok w) trips ws ∧
      [Call.fetchYield 0 row1, Call.set_data 0 row1,
        Call.fetchYield 1 row2, Call.set_data 1 row2] =
        (List.zipWith
          (fun t w => [Call.fetchYield t.2.1 t.2.2, Call.set_data t.2.1 w]) trips ws).flatten :=
  C4_update_same_key testStore testCollab ["t"] [] none 0 2 2
    [.fetchYield 0 row1, .set_data 0 row1, .fetchYield 1 row2, .set_data 1 row2] rfl

/-- Claim C5: for every UPDATE, DELETE or DROP statement that returns an
error, the trace is exactly the forward operations performed up to and
including the failing call, with nothing after it. For UPDATE it is the
completed yield/set_data pairs (each write at its row's yielded key)
followed by at most the failing row's partial block; for DELETE the
completed yield/del_data pairs followed by at most the failing block;
for DROP a sequence of del_schema calls only. The earlier writes and
removals therefore remain in place: no compensating set_data, del_data
or set_schema call is made after the failure. -/
theorem C5_no_rollback {σ κ ε : Type} (storage : Store σ κ ε) (cb : Collab σ κ ε) :
    (∀ (tn0 : ObjectName) (asgn : List Assignment) (sel : Option Expr) (s : σ)
      (er : Err ε) (s2 : σ) (tr : List (Call κ)),
      execute storage cb (.Update tn0 asgn sel) s = (.error er, s2, tr) →
      ∃ (trips : List (Schema × κ × Row)) (ws : List Row) (tail : List (Call κ)),
        tr = (List.zipWith
          (fun t w => [Call.fetchYield t.2.1 t.2.2, Call.set_data t.2.1 w]) trips ws).flatten
          ++ tail ∧
        (tail = [] ∨ (∃ k r, tail = [Call.fetchYield k r]) ∨
          (∃ k r w, tail = [Call.fetchYield k r, Call.set_data k w]))) ∧
    (∀ (tn0 : ObjectName) (sel : Option Expr) (s : σ)
      (er : Err ε) (s2 : σ) (tr : List (Call κ)),
      execute storage cb (.Delete tn0 sel) s = (.error er, s2, tr) →
      ∃ (trips : List (Schema × κ × Row)) (tail : List (Call κ)),
        tr = (trips.map
          (fun t => [Call.fetchYield t.2.1 t.2.2, Call.del_data t.2.1])).flatten ++ tail ∧
        (tail = [] ∨ ∃ k r, tail = [Call.fetchYield k r, Call.del_data k])) ∧
    (∀ (ot : ObjectType) (names : List ObjectName) (s : σ)
      (er : Err ε) (s2 : σ) (tr : List (Call κ)),
      execute storage cb (.Drop ot names) s = (.error er, s2, tr) →
      ∃ tns : List String, tr = tns.map Call.del_schema) := by
  refine ⟨?_, ?_, ?_⟩
  · intro tn0 asgn sel s er s2 tr hex
    simp only [execute] at hex
    cases hg : cb.get_table_name tn0 with
    | error e =>
      simp only [hg, Prod.mk.injEq] at hex
      exact ⟨[], [], [], by simp [← hex.2.2], Or.inl rfl⟩
    | ok tn =>
      simp only [hg] at hex
      cases hc : cb.fetch_columns tn s with
      | error e =>
        simp only [hc, Prod.mk.injEq] at hex
        exact ⟨[], [], [], by simp [← hex.2.2], Or.inl rfl⟩
      | ok cols =>
        simp only [hc] at hex
        cases hu : cb.update_new tn asgn cols s with
        | error e =>
          simp only [hu, Prod.mk.injEq] at hex
          exact ⟨[], [], [], by simp [← hex.2.2], Or.inl rfl⟩
        | ok ap =>
          simp only [hu] at hex
          cases hf : cb.fetch tn cols sel s with
          | error e =>
            simp only [hf, Prod.mk.injEq] at hex
            exact ⟨[], [], [], by simp [← hex.2.2], Or.inl rfl⟩
          | ok items =>
            simp only [hf] at hex
            rcases hl : updateLoop storage ap items 0 s [] with ⟨res, s3, tr3⟩
            simp only [hl] at hex
            cases res with
            | ok num => simp at hex
            | error e =>
              simp only [Prod.mk.injEq] at hex
              obtain ⟨trips, ws, tail, htr, htail⟩ :=
                updateLoop_error_trace storage ap items 0 s [] e s3 tr3 hl
              refine ⟨trips, ws, tail, ?_, htail⟩
              rw [← hex.2.2, htr]
              simp
  · intro tn0 sel s er s2 tr hex
    simp only [execute] at hex
    cases hg : cb.get_table_name tn0 with
    | error e =>
      simp only [hg, Prod.mk.injEq] at hex
      exact ⟨[], [], by simp [← hex.2.2], Or.inl rfl⟩
    | ok tn =>
      simp only [hg] at hex
      cases hc : cb.fetch_columns tn s with
      | error e =>
        simp only [hc, Prod.mk.injEq] at hex
        exact ⟨[], [], by simp [← hex.2.2], Or.inl rfl⟩
      | ok cols =>
        simp only [hc] at hex
        cases hf : cb.fetch tn cols sel s with
        | error e =>
          simp only [hf, Prod.mk.injEq] at hex
          exact ⟨[], [], by simp [← hex.2.2], Or.inl rfl⟩
        | ok items =>
          simp only [hf] at hex
          rcases hl : deleteLoop storage items 0 s [] with ⟨res, s3, tr3⟩
          simp only [hl] at hex
          cases res with
          | ok num => simp at hex
          | error e =>
            simp only [Prod.mk.injEq] at hex
            obtain ⟨trips, tail, htr, htail⟩ :=
              deleteLoop_error_trace storage items 0 s [] e s3 tr3 hl
            refine ⟨trips, tail, ?_, htail⟩
            rw [← hex.2.2, htr]
            simp
  · intro ot names s er s2 tr hex
    simp only [execute] at hex
    by_cases hot : ot ≠ ObjectType.Table
    · rw [if_pos hot] at hex
      simp only [Prod.mk.injEq] at hex
      exact ⟨[], by simp [← hex.2.2]⟩
    · rw [if_neg hot] at hex
      rcases hl : dropLoop storage cb.get_table_name names s [] with ⟨res, s3, tr3⟩
      simp only [hl] at hex
      cases res with
      | ok u => simp at hex
      | error e =>
        simp only [Prod.mk.injEq] at hex
        obtain ⟨tns, htr⟩ := dropLoop_error_trace storage cb.get_table_name names s [] e s3 tr3 hl
        refine ⟨tns, ?_⟩
        rw [← hex.2.2, htr]
        simp

/-- Witness for C5: against a backend whose set_data fails at the second
row, the two-row UPDATE fails after the first write; its trace is the
completed first yield/write pair followed by the failing row's partial
block, with no compensating call after the failure. -/
theorem C5_no_rollback_witness :
    ∃ (trips : List (Schema × Nat × Row)) (ws : List Row) (tail : List (Call Nat)),
      ([Call.fetchYield 0 row1, Call.set_data 0 row1,
          Call.fetchYield 1 row2, Call.set_data 1 row2] : List (Call Nat)) =
        (List.zipWith
          (fun t w => [Call.fetchYield t.2.1 t.2.2, Call.set_data t.2.1 w]) trips ws).flatten
          ++ tail ∧
      (tail = [] ∨ (∃ k r, tail = [Call.fetchYield k r]) ∨
        (∃ k r w, tail = [Call.fetchYield k r, Call.set_data k w])) :=
  (C5_no_rollback failStore testCollab).1 ["t"] [] none 0 (.collab 7) 1
    [.fetchYield 0 row1, .set_data 0 row1, .fetchYield 1 row2, .set_data 1 row2] rfl

/-- Claim C6: for every DROP statement whose object type is not Table,
execute returns the drop-type-not-supported ExecuteError with an empty
trace (no storage-contract call at all, for any number of named targets)
and an unchanged state. -/
theorem C6_drop_non_table {σ κ ε : Type} (storage : Store σ κ ε) (cb : Collab σ κ ε)
    (ot : ObjectType) (names : List ObjectName) (s : σ)
    (hot : ot ≠ ObjectType.Table) :
    execute storage cb (.Drop ot names) s =
      ((.error (.execErr .DropTypeNotSupported) : Except (Err ε) Payload), s,
        ([] : List (Call κ))) := by
  simp only [execute]
  rw [if_pos hot]

/-- Witness for C6: DROP VIEW v1 errors with an empty trace. -/
theorem C6_drop_non_table_witness :
    ObjectType.View ≠ ObjectType.Table ∧
      execute testStore testCollab (.Drop .View [["v1"]]) 0 =
        ((.error (.execErr .DropTypeNotSupported) : Except (Err Nat) Payload), 0,
          ([] : List (Call Nat))) :=
  ⟨by decide, C6_drop_non_table testStore testCollab .View [["v1"]] 0 (by decide)⟩

/-- Claim C7: for every statement whose kind is none of CREATE TABLE,
SELECT, INSERT, UPDATE, DELETE or DROP (the `Other` fallthrough arm),
execute returns the query-not-supported ExecuteError with an empty trace
(zero storage-contract calls) and an unchanged state. -/
theorem C7_unsupported_statement {σ κ ε : Type} (storage : Store σ κ ε) (cb : Collab σ κ ε)
    (tag : Nat) (s : σ) :
    execute storage cb (.Other tag) s =
      ((.error (.execErr .QueryNotSupported) : Except (Err ε) Payload), s,
        ([] : List (Call κ))) := rfl

/-- Claim C8: if execute returns a dispatcher-local ExecuteError, the
statement kind was either an unsupported kind (the fallthrough arm) or a
DROP of a non-table object kind; every other error execute returns is a
collaborator error propagated unchanged (in this embedding, a value of
the `Err.collab` injection). -/
theorem C8_error_taxonomy {σ κ ε : Type} (storage : Store σ κ ε) (cb : Collab σ κ ε)
    (stmt : Statement) (s : σ) (e : ExecuteError) (s2 : σ) (tr : List (Call κ))
    (hex : execute storage cb stmt s = (.error (.execErr e), s2, tr)) :
    (∃ tag, stmt = .Other tag) ∨
      (∃ ot names, stmt = .Drop ot names ∧ ot ≠ ObjectType.Table) := by
  cases stmt with
  | CreateTable name columns =>
    simp only [execute] at hex
    cases hg : cb.get_table_name name with
    | error e0 => simp [hg] at hex
    | ok tn =>
      simp only [hg] at hex
      cases hss : storage.set_schema ⟨tn, columns⟩ s with
      | error e0 => simp [hss] at hex
      | ok pr =>
        obtain ⟨u, s3⟩ := pr
        simp [hss] at hex
  | Query q =>
    simp only [execute] at hex
    cases hsel : cb.select q s with
    | error e0 => simp [hsel] at hex
    | ok items =>
      simp only [hsel] at hex
      cases hcr : collectResults items with
      | error e0 => simp [hcr] at hex
      | ok rows => simp [hcr] at hex
  | Insert tn0 cols source =>
    simp only [execute] at hex
    cases hg : cb.get_table_name tn0 with
    | error e0 => simp [hg] at hex
    | ok tn =>
      simp only [hg] at hex
      cases hgs : storage.get_schema tn s with
      | error e0 => simp [hgs] at hex
      | ok pr =>
        obtain ⟨schema, s3⟩ := pr
        simp only [hgs] at hex
        cases hid : storage.gen_id tn s3 with
        | error e0 => simp [hid] at hex
        | ok pr2 =>
          obtain ⟨key, s4⟩ := pr2
          simp only [hid] at hex
          cases hrn : cb.row_new schema.column_defs cols source with
          | error e0 => simp [hrn] at hex
          | ok row =>
            simp only [hrn] at hex
            cases hsd : storage.set_data key row s4 with
            | error e0 => simp [hsd] at hex
            | ok pr3 =>
              obtain ⟨storedRow, s5⟩ := pr3
              simp [hsd] at hex
  | Update tn0 asgn sel =>
    simp only [execute] at hex
    cases hg : cb.get_table_name tn0 with
    | error e0 => simp [hg] at hex
    | ok tn =>
      simp only [hg] at hex
      cases hc : cb.fetch_columns tn s with
      | error e0 => simp [hc] at hex
      | ok cols =>
        simp only [hc] at hex
        cases hu : cb.update_new tn asgn cols s with
        | error e0 => simp [hu] at hex
        | ok ap =>
          simp only [hu] at hex
          cases hf : cb.fetch tn cols sel s with
          | error e0 => simp [hf] at hex
          | ok items =>
            simp only [hf] at hex
            rcases hl : updateLoop storage ap items 0 s [] with ⟨res, s3, tr3⟩
            simp only [hl] at hex
            cases res with
            | ok num => simp at hex
            | error e0 =>
              obtain ⟨ce, hce⟩ :=
                updateLoop_error_collab storage ap items 0 s [] e0 s3 tr3 hl
              rw [hce] at hex
              simp at hex
  | Delete tn0 sel =>
    simp only [execute] at hex
    cases hg : cb.get_table_name tn0 with
    | error e0 => simp [hg] at hex
    | ok tn =>
      simp only [hg] at hex
      cases hc : cb.fetch_columns tn s with
      | error e0 => simp [hc] at hex
      | ok cols =>
        simp only [hc] at hex
        cases hf : cb.fetch tn cols sel s with
        | error e0 => simp [hf] at hex
        | ok items =>
          simp only [hf] at hex
          rcases hl : deleteLoop storage items 0 s [] with ⟨res, s3, tr3⟩
          simp only [hl] at hex
          cases res with
          | ok num => simp at hex
          | error e0 =>
            obtain ⟨ce, hce⟩ := deleteLoop_error_collab storage items 0 s [] e0 s3 tr3 hl
            rw [hce] at hex
            simp at hex
  | Drop ot names =>
    by_cases hot : ot ≠ ObjectType.Table
    · exact Or.inr ⟨ot, names, rfl, hot⟩
    · simp only [execute] at hex
      rw [if_neg hot] at hex
      rcases hl : dropLoop storage cb.get_table_name names s [] with ⟨res, s3, tr3⟩
      simp only [hl] at hex
      cases res with
      | ok u => simp at hex
      | error e0 =>
        obtain ⟨ce, hce⟩ := dropLoop_error_collab storage cb.get_table_name names s [] e0 s3 tr3 hl
        rw [hce] at hex
        simp at hex
  | Other tag => exact Or.inl ⟨tag, rfl⟩

/-- Witness for C8: the unsupported test statement returns the
query-not-supported ExecuteError, so its kind is the fallthrough arm. -/
theorem C8_error_taxonomy_witness :
    (∃ tag, Statement.Other 0 = .Other tag) ∨
      (∃ ot names, Statement.Other 0 = .Drop ot names ∧ ot ≠ ObjectType.Table) :=
  C8_error_taxonomy testStore testCollab (.Other 0) 0 .QueryNotSupported 0 [] rfl

/-- Claim C9: for every successful UPDATE or DELETE, the trace is a
flattening of two-event blocks, one per matched row: the draw of that row
from the live iteration immediately followed by its set_data write
(UPDATE) or del_data removal (DELETE). Each mutation is interleaved with
the ongoing iteration, per matched row, not batched after a full scan. -/
theorem C9_mutate_during_iterate {σ κ ε : Type} (storage : Store σ κ ε) (cb : Collab σ κ ε) :
    (∀ (tn0 : ObjectName) (asgn : List Assignment) (sel : Option Expr) (s : σ)
      (n : Nat) (s2 : σ) (tr : List (Call κ)),
      execute storage cb (.Update tn0 asgn sel) s = (.ok (.Update n), s2, tr) →
      ∃ (trips : List (Schema × κ × Row)) (ws : List Row),
        tr = (List.zipWith
          (fun t w => [Call.fetchYield t.2.1 t.2.2, Call.set_data t.2.1 w]) trips ws).flatten) ∧
    (∀ (tn0 : ObjectName) (sel : Option Expr) (s : σ)
      (n : Nat) (s2 : σ) (tr : List (Call κ)),
      execute storage cb (.Delete tn0 sel) s = (.ok (.Delete n), s2, tr) →
      ∃ trips : List (Schema × κ × Row),
        tr = (trips.map
          (fun t => [Call.fetchYield t.2.1 t.2.2, Call.del_data t.2.1])).flatten) := by
  constructor
  · intro tn0 asgn sel s n s2 tr hex
    simp only [execute] at hex
    cases hg : cb.get_table_name tn0 with
    | error e => simp [hg] at hex
    | ok tn =>
      simp only [hg] at hex
      cases hc : cb.fetch_columns tn s with
      | error e => simp [hc] at hex
      | ok cols =>
        simp only [hc] at hex
        cases hu : cb.update_new tn asgn cols s with
        | error e => simp [hu] at hex
        | ok ap =>
          simp only [hu] at hex
          cases hf : cb.fetch tn cols sel s with
          | error e => simp [hf] at hex
          | ok items =>
            simp only [hf] at hex
            rcases hl : updateLoop storage ap items 0 s [] with ⟨res, s3, tr3⟩
            simp only [hl] at hex
            cases res with
            | error e => simp at hex
            | ok num =>
              simp only [Prod.mk.injEq, Except.ok.injEq, Payload.Update.injEq] at hex
              obtain ⟨trips, ws, hitems, hfa, htr⟩ :=
                updateLoop_ok_trace storage ap items 0 s [] num s3 tr3 hl
              refine ⟨trips, ws, ?_⟩
              rw [← hex.2.2, htr]
              simp
  · intro tn0 sel s n s2 tr hex
    simp only [execute] at hex
    cases hg : cb.get_table_name tn0 with
    | error e => simp [hg] at hex
    | ok tn =>
      simp only [hg] at hex
      cases hc : cb.fetch_columns tn s with
      | error e => simp [hc] at hex
      | ok cols =>
        simp only [hc] at hex
        cases hf : cb.fetch tn cols sel s with
        | error e => simp [hf] at hex
        | ok items =>
          simp only [hf] at hex
          rcases hl : deleteLoop storage items 0 s [] with ⟨res, s3, tr3⟩
          simp only [hl] at hex
          cases res with
          | error e => simp at hex
          | ok num =>
            simp only [Prod.mk.injEq, Except.ok.injEq, Payload.Delete.injEq] at hex
            obtain ⟨trips, hitems, hn, htr⟩ := deleteLoop_ok_spec storage items 0 s [] num s3 tr3 hl
            refine ⟨trips, ?_⟩
            rw [← hex.2.2, htr]
            simp

/-- Witness for C9: the two-row test DELETE produces the interleaved
draw/remove trace. -/
theorem C9_mutate_during_iterate_witness :
    ∃ trips : List (Schema × Nat × Row),
      ([Call.fetchYield 0 row1, Call.del_data 0, Call.fetchYield 1 row2, Call.del_data 1]
          : List (Call Nat)) =
        (trips.map (fun t => [Call.fetchYield t.2.1 t.2.2, Call.del_data t.2.1])).flatten :=
  (C9_mutate_during_iterate testStore testCollab).2 ["t"] none 0 2 2
    [.fetchYield 0 row1, .del_data 0, .fetchYield 1 row2, .del_data 1] rfl

/-- Claim C10: for every SELECT, INSERT, UPDATE or DELETE statement,
whether it succeeds or fails, the trace contains no set_schema and no
del_schema call: data-manipulation statements leave the set of stored
table schemas unchanged. -/
theorem C10_dml_schema_frame {σ κ ε : Type} (storage : Store σ κ ε) (cb : Collab σ κ ε)
    (stmt : Statement) (s : σ) (hdml : isDML stmt = true)
    (r : Except (Err ε) Payload) (s2 : σ) (tr : List (Call κ))
    (hex : execute storage cb stmt s = (r, s2, tr)) :
    tr.all (fun c => !isSchemaMut c) = true := by
  cases stmt with
  | CreateTable name columns => simp [isDML] at hdml
  | Query q =>
    simp only [execute] at hex
    cases hsel : cb.select q s with
    | error e =>
      simp only [hsel, Prod.mk.injEq] at hex
      rw [← hex.2.2]
      simp
    | ok items =>
      simp only [hsel] at hex
      cases hcr : collectResults items with
      | error e =>
        simp only [hcr, Prod.mk.injEq] at hex
        rw [← hex.2.2]
        simp
      | ok rows =>
        simp only [hcr, Prod.mk.injEq] at hex
        rw [← hex.2.2]
        simp
  | Insert tn0 cols source =>
    simp only [execute] at hex
    cases hg : cb.get_table_name tn0 with
    | error e =>
      simp only [hg, Prod.mk.injEq] at hex
      rw [← hex.2.2]
      simp
    | ok tn =>
      simp only [hg] at hex
      cases hgs : storage.get_schema tn s with
      | error e =>
        simp only [hgs, Prod.mk.injEq] at hex
        rw [← hex.2.2]
        simp [isSchemaMut]
      | ok pr =>
        obtain ⟨schema, s3⟩ := pr
        simp only [hgs] at hex
        cases hid : storage.gen_id tn s3 with
        | error e =>
          simp only [hid, Prod.mk.injEq] at hex
          rw [← hex.2.2]
          simp [isSchemaMut]
        | ok pr2 =>
          obtain ⟨key, s4⟩ := pr2
          simp only [hid] at hex
          cases hrn : cb.row_new schema.column_defs cols source with
          | error e =>
            simp only [hrn, Prod.mk.injEq] at hex
            rw [← hex.2.2]
            simp [isSchemaMut]
          | ok row =>
            simp only [hrn] at hex
            cases hsd : storage.set_data key row s4 with
            | error e =>
              simp only [hsd, Prod.mk.injEq] at hex
              rw [← hex.2.2]
              simp [isSchemaMut]
            | ok pr3 =>
              obtain ⟨storedRow, s5⟩ := pr3
              simp only [hsd, Prod.mk.injEq] at hex
              rw [← hex.2.2]
              simp [isSchemaMut]
  | Update tn0 asgn sel =>
    simp only [execute] at hex
    cases hg : cb.get_table_name tn0 with
    | error e =>
      simp only [hg, Prod.mk.injEq] at hex
      rw [← hex.2.2]
      simp
    | ok tn =>
      simp only [hg] at hex
      cases hc : cb.fetch_columns tn s with
      | error e =>
        simp only [hc, Prod.mk.injEq] at hex
        rw [← hex.2.2]
        simp
      | ok cols =>
        simp only [hc] at hex
        cases hu : cb.update_new tn asgn cols s with
        | error e =>
          simp only [hu, Prod.mk.injEq] at hex
          rw [← hex.2.2]
          simp
        | ok ap =>
          simp only [hu] at hex
          cases hf : cb.fetch tn cols sel s with
          | error e =>
            simp only [hf, Prod.mk.injEq] at hex
            rw [← hex.2.2]
            simp
          | ok items =>
            simp only [hf] at hex
            rcases hl : updateLoop storage ap items 0 s [] with ⟨res, s3, tr3⟩
            simp only [hl] at hex
            cases res with
            | error e =>
              simp only [Prod.mk.injEq] at hex
              rw [← hex.2.2]
              exact updateLoop_trace_all storage ap (fun c => !isSchemaMut c)
                (fun k r => rfl) (fun k r => rfl) items 0 s [] (.error e) s3 tr3 hl (by simp)
            | ok num =>
              simp only [Prod.mk.injEq] at hex
              rw [← hex.2.2]
              exact updateLoop_trace_all storage ap (fun c => !isSchemaMut c)
                (fun k r => rfl) (fun k r => rfl) items 0 s [] (.ok num) s3 tr3 hl (by simp)
  | Delete tn0 sel =>
    simp only [execute] at hex
    cases hg : cb.get_table_name tn0 with
    | error e =>
      simp only [hg, Prod.mk.injEq] at hex
      rw [← hex.2.2]
      simp
    | ok tn =>
      simp only [hg] at hex
      cases hc : cb.fetch_columns tn s with
      | error e =>
        simp only [hc, Prod.mk.injEq] at hex
        rw [← hex.2.2]
        simp
      | ok cols =>
        simp only [hc] at hex
        cases hf : cb.fetch tn cols sel s with
        | error e =>
          simp only [hf, Prod.mk.injEq] at hex
          rw [← hex.2.2]
          simp
        | ok items =>
          simp only [hf] at hex
          rcases hl : deleteLoop storage items 0 s [] with ⟨res, s3, tr3⟩
          simp only [hl] at hex
          cases res with
          | error e =>
            simp only [Prod.mk.injEq] at hex
            rw [← hex.2.2]
            exact deleteLoop_trace_all storage (fun c => !isSchemaMut c)
              (fun k r => rfl) (fun k => rfl) items 0 s [] (.error e) s3 tr3 hl (by simp)
          | ok num =>
            simp only [Prod.mk.injEq] at hex
            rw [← hex.2.2]
            exact deleteLoop_trace_all storage (fun c => !isSchemaMut c)
              (fun k r => rfl) (fun k => rfl) items 0 s [] (.ok num) s3 tr3 hl (by simp)
  | Drop ot names => simp [isDML] at hdml
  | Other tag => simp [isDML] at hdml

/-- Witness for C10: the successful two-row test UPDATE performs no
schema mutation. -/
theorem C10_dml_schema_frame_witness :
    ([Call.fetchYield 0 row1, Call.set_data 0 row1,
        Call.fetchYield 1 row2, Call.set_data 1 row2] : List (Call Nat)).all
      (fun c => !isSchemaMut c) = true :=
  C10_dml_schema_frame testStore testCollab (.Update ["t"] [] none) 0 rfl
    (.ok (.Update 2)) 2
    [.fetchYield 0 row1, .set_data 0 row1, .fetchYield 1 row2, .set_data 1 row2] rfl

end GlueSQL
